import Mathlib

set_option maxRecDepth 4000
set_option exponentiation.threshold 2000000

/-!
# Verification of `include/eos/render/utils.hpp`

Shallow embedding of the two components of the header: the coordinate mapper
(`clip_to_screen_space`, `screen_to_clip_space`) and the texture pyramid
builder (`get_max_possible_mipmaps_num`, `is_power_of_two`,
`Texture::create_mipmapped_texture`).

Floating-point arithmetic of the coordinate mapper is modelled exactly over
`ℚ`; the `std::log`-based log2 bookkeeping is modelled over `ℝ` through the
computable function `log2eps`, proved equal to the exact-real reading
`⌊log₂ c + 1/10000⌋` of the source expression.

Images (`cv::Mat`) are modelled at the metadata level (dimensions, channel
count, per-channel depth), which is the level at which every claim about the
builder is stated; pixel contents are the resampling collaborator's concern.
The three OpenCV operations the builder calls (`Mat::convertTo`, `cvtColor`
with `CV_BGR2BGRA`, `cv::resize`) are modelled by their documented behaviour
on that metadata.
-/

/-- OpenCV depth code `CV_8U` (8-bit unsigned channel depth). -/
def CV_8U : ℕ := 0

/-- A `cv::Mat` image viewed at the metadata level: its dimensions
(`cols` × `rows`), channel count and per-channel depth code. -/
structure Image where
  cols : ℕ
  rows : ℕ
  channels : ℕ
  depth : ℕ
deriving DecidableEq, Repr

/-- The two failure kinds of `Texture::create_mipmapped_texture`:
the `std::runtime_error` thrown on the power-of-two validation
(`InvalidDimensions`), and an OpenCV exception propagated from
`convertTo`/`cvtColor`/`resize` (`ImageProcessingFailure`). -/
inductive Err where
  | InvalidDimensions : Err
  | ImageProcessingFailure : Err
deriving DecidableEq, Repr

/-- Modelled from the external collaborator (OpenCV): `image.convertTo(image, CV_8UC4)`.
`Mat::convertTo` takes only the *depth* from the requested type and keeps the
source's channel count and dimensions, so this call converts the depth to
8-bit unsigned and nothing else. It does not fail. -/
def convertTo_CV8UC4 (img : Image) : Image :=
  { img with depth := CV_8U }

/-- Modelled from the external collaborator (OpenCV):
`cv::cvtColor(image, image, CV_BGR2BGRA)`. The conversion code `CV_BGR2BGRA`
accepts a 3- or 4-channel source (OpenCV asserts `scn == 3 || scn == 4`) and
produces a 4-channel image of the same dimensions and depth; any other
channel count raises an OpenCV exception, which the builder propagates. -/
def cvtColor_BGR2BGRA (img : Image) : Except Err Image :=
  if img.channels = 3 ∨ img.channels = 4 then
    Except.ok { img with channels := 4 }
  else
    Except.error Err.ImageProcessingFailure

/-- Modelled from the external collaborator (OpenCV):
`cv::resize(src, dst, dsize)`. `cv::resize` asserts that the source area is
positive (`CV_Assert(ssize.area() > 0)`) and that the destination size is
nonempty (the call passes no scale factors), raising an OpenCV exception
otherwise; on success the destination has the requested dimensions and the
source's channel count and depth. Pixel contents (the resampling kernel) are
outside the structural model. -/
def cv_resize (src : Image) (dcols drows : ℕ) : Except Err Image :=
  if src.cols * src.rows = 0 then Except.error Err.ImageProcessingFailure
  else if dcols * drows = 0 then Except.error Err.ImageProcessingFailure
  else Except.ok { cols := dcols, rows := drows, channels := src.channels, depth := src.depth }

/-- The `do { size >>= 1; mipmapsNum++; } while (size != 1)` loop of
`get_max_possible_mipmaps_num`, as a fuelled recursion: `none` models the
C++ loop never terminating (once `size` is `0` it is shifted to `0` forever,
so no finite fuel reaches `1`; for every `size ≥ 2` the fuel passed by
`get_max_possible_mipmaps_num` is sufficient, see `gm_loop_some`). -/
def gm_loop : ℕ → ℕ → ℕ → Option ℕ
  | 0, _, _ => none
  | fuel + 1, size, mipmapsNum =>
    let size' := size >>> 1
    let mipmapsNum' := mipmapsNum + 1
    if size' = 1 then some mipmapsNum' else gm_loop fuel size' mipmapsNum'

/-- `get_max_possible_mipmaps_num(width, height)`: starts from
`size = max(width, height)`, returns `1` immediately when `size == 1`, and
otherwise right-shifts `size` until it reaches `1`, counting the shifts.
A `none` result models divergence of the do-while loop (only possible when
`width = height = 0`). -/
def get_max_possible_mipmaps_num (width height : ℕ) : Option ℕ :=
  let size := max width height
  if size = 1 then some 1
  else gm_loop size size 1

/-- `is_power_of_two(int x) { return !(x & (x - 1)); }`, bit-for-bit on `ℤ`
(two's-complement bitwise and, as `Int.land`). -/
def is_power_of_two (x : ℤ) : Bool :=
  decide (Int.land x (x - 1) = 0)

/-- One halving step of the level-size bookkeeping:
`if (curr > 1) curr >>= 1;`. -/
def halve (x : ℕ) : ℕ :=
  if 1 < x then x >>> 1 else x

/-- `⌊log₂ n⌋` (0 for `n ≤ 1`) as a fuelled structural recursion, so that the
kernel can evaluate it on literals (`Nat.log2` itself is defined by
well-founded recursion and does not reduce); `log2F_eq_log2` proves it equal
to `Nat.log2` whenever the fuel is at least `n`. -/
def log2F : ℕ → ℕ → ℕ
  | 0, _ => 0
  | fuel + 1, n => if 2 ≤ n then log2F fuel (n / 2) + 1 else 0

/-- The log2 bookkeeping `(uchar)(std::log(c) / CV_LOG2 + 0.0001f)` of
`create_mipmapped_texture`, under exact real arithmetic: the value
`⌊log₂ c + 1/10000⌋` (`log2eps_eq_floor` below proves this reading), written
as a computable function. The epsilon bumps the result to `Nat.log2 c + 1`
exactly when `log₂ c ≥ Nat.log2 c + 1 - 1/10000`, i.e. when
`2 * c ^ 10000 ≥ 2 ^ (10000 * (Nat.log2 c + 1))`. -/
def log2eps (c : ℕ) : ℕ :=
  if Nat.pow 2 (10000 * (log2F c c + 1)) ≤ 2 * Nat.pow c 10000 then
    log2F c c + 1
  else
    log2F c c

/-- The `Texture` class: its level sequence `mipmaps` and the public log2
fields, plus the private level-count field `mipmaps_num`. In C++ the scalar
members of a default-constructed `Texture` are uninitialized; `Texture.init`
below stands in for that state with zeros (every path of the builder
overwrites `mipmaps_num` before reading it, and assigns the log2 fields
before they are ever read). -/
structure Texture where
  mipmaps : List Image
  widthLog : ℕ
  heightLog : ℕ
  mipmaps_num : ℕ
deriving DecidableEq, Repr

/-- A default-constructed `Texture`: empty level vector; the scalar members
(uninitialized in C++) are modelled as `0`. -/
def Texture.init : Texture :=
  { mipmaps := [], widthLog := 0, heightLog := 0, mipmaps_num := 0 }

/-- Outcome of a call to `Texture::create_mipmapped_texture` on a given
receiver state: normal return with the new state, an exception escaping with
the receiver in its (possibly partially mutated) state at the throw point, or
divergence of the level-count loop. -/
inductive BuildResult where
  | ok : Texture → BuildResult
  | err : Err → Texture → BuildResult
  | divergent : BuildResult
deriving DecidableEq, Repr

/-- Placeholder image for the (unreachable) out-of-range case of the
`mipmaps[i - 1]` vector access inside the level loop. -/
def noImage : Image :=
  { cols := 0, rows := 0, channels := 0, depth := 0 }

/-- The level loop `for (int i = 0; i < mipmaps_num; i++)` of
`create_mipmapped_texture`, with `rem` iterations left to run and `i` the
current loop index. Iteration `i = 0` pushes the converted source image;
iteration `i ≥ 1` resizes `mipmaps[i - 1]` (an index into the whole vector,
including any levels present before the call) to the current target
dimensions and pushes the result. After each iteration both dimensions are
halved, with a floor of 1 (`halve`). A thrown OpenCV exception stops the
loop, leaving the levels pushed so far. -/
def buildLoop (image : Image) : ℕ → ℕ → ℕ → ℕ → List Image → List Image × Option Err
  | 0, _, _, _, mm => (mm, none)
  | rem + 1, i, currWidth, currHeight, mm =>
    match (if i = 0 then Except.ok image
           else cv_resize (mm.getD (i - 1) noImage) currWidth currHeight) with
    | Except.error e => (mm, some e)
    | Except.ok lvl =>
      buildLoop image rem (i + 1) (halve currWidth) (halve currHeight) (mm ++ [lvl])

/-- `Texture::create_mipmapped_texture(cv::Mat image, unsigned int mipmapsNum = 0)`
acting on receiver state `tex`:
1. `mipmaps_num` is set to `mipmapsNum`, or to
   `get_max_possible_mipmaps_num(image.cols, image.rows)` when `mipmapsNum == 0`
   (divergent for a 0×0 image);
2. if the resolved count exceeds 1 and either dimension fails
   `is_power_of_two`, a `std::runtime_error` is thrown (`InvalidDimensions`) —
   note `mipmaps_num` has already been overwritten at this point;
3. the image is converted to 8-bit depth (`convertTo`) and to 4 channels
   (`cvtColor`, which throws for channel counts other than 3 or 4);
4. the level loop runs `mipmaps_num` times (`buildLoop`);
5. the log2 fields are computed from `mipmaps[0]` via `log2eps`. -/
def create_mipmapped_texture (image : Image) (mipmapsNum : ℕ) (tex : Texture) : BuildResult :=
  match (if mipmapsNum = 0 then get_max_possible_mipmaps_num image.cols image.rows
         else some mipmapsNum) with
  | none => BuildResult.divergent
  | some num =>
    if 1 < num ∧ (is_power_of_two (image.cols : ℤ) = false ∨
                  is_power_of_two (image.rows : ℤ) = false) then
      BuildResult.err Err.InvalidDimensions { tex with mipmaps_num := num }
    else
      match cvtColor_BGR2BGRA (convertTo_CV8UC4 image) with
      | Except.error e => BuildResult.err e { tex with mipmaps_num := num }
      | Except.ok image2 =>
        match buildLoop image2 num 0 image2.cols image2.rows tex.mipmaps with
        | (mm, some e) => BuildResult.err e { tex with mipmaps_num := num, mipmaps := mm }
        | (mm, none) =>
          BuildResult.ok { tex with
            mipmaps_num := num,
            mipmaps := mm,
            widthLog := log2eps (mm.getD 0 noImage).cols,
            heightLog := log2eps (mm.getD 0 noImage).rows }

/-- A `cv::Vec2f` 2D point, its float coordinates modelled exactly over `ℚ`. -/
structure Vec2f where
  x : ℚ
  y : ℚ
deriving DecidableEq, Repr

/-- `clip_to_screen_space(clip_coordinates, screen_width, screen_height)`:
`x_ss = (x + 1) * (w / 2)`, `y_ss = h - (y + 1) * (h / 2)` (y flipped). -/
def clip_to_screen_space (clip_coordinates : Vec2f) (screen_width screen_height : ℤ) : Vec2f :=
  let x_ss : ℚ := (clip_coordinates.x + 1) * ((screen_width : ℚ) / 2)
  let y_ss : ℚ := (screen_height : ℚ) - (clip_coordinates.y + 1) * ((screen_height : ℚ) / 2)
  { x := x_ss, y := y_ss }

/-- `screen_to_clip_space(screen_coordinates, screen_width, screen_height)`:
`x_cs = x / (w / 2) - 1`, `y_cs = -(y / (h / 2) - 1)`. -/
def screen_to_clip_space (screen_coordinates : Vec2f) (screen_width screen_height : ℤ) : Vec2f :=
  let x_cs : ℚ := screen_coordinates.x / ((screen_width : ℚ) / 2) - 1
  let y_cs : ℚ := screen_coordinates.y / ((screen_height : ℚ) / 2) - 1
  { x := x_cs, y := y_cs * (-1) }

/-- The expected level-`j` metadata of a pyramid built from (converted)
source `image`: both dimensions halved `j` times with a floor of 1; channel
count and depth those of the source. -/
def levelOf (image : Image) (j : ℕ) : Image :=
  { image with cols := halve^[j] image.cols, rows := halve^[j] image.rows }

-- Concrete inputs used by the claims and their witnesses.

/-- A 128×128 3-channel 8-bit source image. -/
def img128 : Image := { cols := 128, rows := 128, channels := 3, depth := CV_8U }

/-- A 1×1 3-channel 8-bit source image. -/
def img1x1 : Image := { cols := 1, rows := 1, channels := 3, depth := CV_8U }

/-- A 100×50 (non-power-of-two) 3-channel 8-bit source image. -/
def img100x50 : Image := { cols := 100, rows := 50, channels := 3, depth := CV_8U }

/-- A 16×16 3-channel 8-bit source image. -/
def img16 : Image := { cols := 16, rows := 16, channels := 3, depth := CV_8U }

/-- A 256×64 3-channel 8-bit source image. -/
def img256x64 : Image := { cols := 256, rows := 64, channels := 3, depth := CV_8U }

/-- An 8×8 single-channel (grayscale) 8-bit source image. -/
def img1ch : Image := { cols := 8, rows := 8, channels := 1, depth := CV_8U }

/-- A degenerate 0×2 3-channel image: width 0 passes `is_power_of_two`. -/
def img0x2 : Image := { cols := 0, rows := 2, channels := 3, depth := CV_8U }

/-- A texture state left by an earlier successful single-level build of a
4×4 image, used as the receiver of a subsequent failing call. -/
def texPrev : Texture :=
  { mipmaps := [{ cols := 4, rows := 4, channels := 4, depth := CV_8U }],
    widthLog := 2, heightLog := 2, mipmaps_num := 1 }

/-- The pyramid built by `create_mipmapped_texture(img128, 0)` on a fresh
texture: 8 square levels 128 … 1. -/
def tex128 : Texture :=
  { mipmaps :=
      [{ cols := 128, rows := 128, channels := 4, depth := 0 },
       { cols := 64, rows := 64, channels := 4, depth := 0 },
       { cols := 32, rows := 32, channels := 4, depth := 0 },
       { cols := 16, rows := 16, channels := 4, depth := 0 },
       { cols := 8, rows := 8, channels := 4, depth := 0 },
       { cols := 4, rows := 4, channels := 4, depth := 0 },
       { cols := 2, rows := 2, channels := 4, depth := 0 },
       { cols := 1, rows := 1, channels := 4, depth := 0 }],
    widthLog := 7, heightLog := 7, mipmaps_num := 8 }

/-- The pyramid built by `create_mipmapped_texture(img1x1, 0)` on a fresh
texture: a single 1×1 level. -/
def tex1x1 : Texture :=
  { mipmaps := [{ cols := 1, rows := 1, channels := 4, depth := 0 }],
    widthLog := 0, heightLog := 0, mipmaps_num := 1 }

/-- The pyramid built by `create_mipmapped_texture(img100x50, 1)` on a fresh
texture: a single level, power-of-two check bypassed. -/
def tex100x50 : Texture :=
  { mipmaps := [{ cols := 100, rows := 50, channels := 4, depth := 0 }],
    widthLog := 6, heightLog := 5, mipmaps_num := 1 }

/-- The pyramid built by `create_mipmapped_texture(img16, 0)` on a fresh
texture: 5 square levels 16, 8, 4, 2, 1. -/
def tex16 : Texture :=
  { mipmaps :=
      [{ cols := 16, rows := 16, channels := 4, depth := 0 },
       { cols := 8, rows := 8, channels := 4, depth := 0 },
       { cols := 4, rows := 4, channels := 4, depth := 0 },
       { cols := 2, rows := 2, channels := 4, depth := 0 },
       { cols := 1, rows := 1, channels := 4, depth := 0 }],
    widthLog := 4, heightLog := 4, mipmaps_num := 5 }

/-- The pyramid built by `create_mipmapped_texture(img256x64, 0)` on a fresh
texture: 9 levels from 256×64 down to 1×1, with `widthLog = 8`,
`heightLog = 6`. -/
def tex256x64 : Texture :=
  { mipmaps :=
      [{ cols := 256, rows := 64, channels := 4, depth := 0 },
       { cols := 128, rows := 32, channels := 4, depth := 0 },
       { cols := 64, rows := 16, channels := 4, depth := 0 },
       { cols := 32, rows := 8, channels := 4, depth := 0 },
       { cols := 16, rows := 4, channels := 4, depth := 0 },
       { cols := 8, rows := 2, channels := 4, depth := 0 },
       { cols := 4, rows := 1, channels := 4, depth := 0 },
       { cols := 2, rows := 1, channels := 4, depth := 0 },
       { cols := 1, rows := 1, channels := 4, depth := 0 }],
    widthLog := 8, heightLog := 6, mipmaps_num := 9 }

/-! ## Helper lemmas -/

theorem halve_eq_max (x : ℕ) (hx : 1 ≤ x) : halve x = max 1 (x / 2) := by
  unfold halve
  rw [Nat.shiftRight_one]
  split <;> omega

theorem halve_pos (x : ℕ) (hx : 1 ≤ x) : 1 ≤ halve x := by
  unfold halve; rw [Nat.shiftRight_one]; split <;> omega

theorem halve_iterate_pos (x : ℕ) (hx : 1 ≤ x) : ∀ j, 1 ≤ halve^[j] x := by
  intro j
  induction j with
  | zero => simpa
  | succ k ih => rw [Function.iterate_succ_apply']; exact halve_pos _ ih

theorem log2F_eq_log2 : ∀ fuel n, n ≤ fuel → log2F fuel n = Nat.log2 n := by
  intro fuel
  induction fuel with
  | zero =>
    intro n hn
    have : n = 0 := by omega
    subst this
    simp [log2F, Nat.log2]
  | succ f ih =>
    intro n hn
    by_cases h2 : 2 ≤ n
    · rw [show log2F (f + 1) n = log2F f (n / 2) + 1 by simp [log2F, h2]]
      rw [ih (n / 2) (by omega)]
      conv_rhs => rw [Nat.log2]
      simp [h2]
    · rw [show log2F (f + 1) n = 0 by simp [log2F, h2]]
      rw [Nat.log2]
      simp [h2]

theorem gm_loop_zero : ∀ fuel n, gm_loop fuel 0 n = none := by
  intro fuel
  induction fuel with
  | zero => intro n; rfl
  | succ f ih => intro n; simpa [gm_loop] using ih (n + 1)

theorem gm_loop_some : ∀ fuel size n, 2 ≤ size → Nat.log2 size ≤ fuel →
    gm_loop fuel size n = some (n + Nat.log2 size) := by
  intro fuel
  induction fuel with
  | zero =>
    intro size n h2 hf
    exfalso
    have : 1 ≤ Nat.log2 size := by
      rw [Nat.le_log2 (by omega)]; simpa
    omega
  | succ f ih =>
    intro size n h2 hf
    have hs : size >>> 1 = size / 2 := Nat.shiftRight_one size
    have hlog : Nat.log2 size = Nat.log2 (size / 2) + 1 := by
      conv_lhs => rw [Nat.log2]
      simp [h2]
    by_cases h1 : size / 2 = 1
    · rw [show gm_loop (f + 1) size n = some (n + 1) by simp [gm_loop, hs, h1]]
      rw [hlog, h1]
      simp [Nat.log2]
    · have h2' : 2 ≤ size / 2 := by omega
      rw [show gm_loop (f + 1) size n = gm_loop f (size / 2) (n + 1) by simp [gm_loop, hs, h1]]
      rw [ih (size / 2) (n + 1) h2' (by omega)]
      congr 1
      omega

/-- For `max width height ≥ 1` the do-while loop terminates and
`get_max_possible_mipmaps_num` returns `⌊log₂ (max width height)⌋ + 1`. -/
theorem gm_eq_some (width height : ℕ) (h : 1 ≤ max width height) :
    get_max_possible_mipmaps_num width height =
      some (Nat.log2 (max width height) + 1) := by
  unfold get_max_possible_mipmaps_num
  by_cases h1 : max width height = 1
  · rw [if_pos h1, h1]
    simp [Nat.log2]
  · rw [if_neg h1]
    have h2 : 2 ≤ max width height := by omega
    have hfuel : Nat.log2 (max width height) ≤ max width height :=
      Nat.log2_le_self _
    rw [gm_loop_some _ _ _ h2 hfuel]
    rw [Nat.add_comm]

theorem gm_some_ge_one (width height num : ℕ)
    (h : get_max_possible_mipmaps_num width height = some num) : 1 ≤ num := by
  unfold get_max_possible_mipmaps_num at h
  replace h : (if max width height = 1 then some 1
      else gm_loop (max width height) (max width height) 1) = some num := h
  split at h
  · simp only [Option.some.injEq] at h
    omega
  · rcases Nat.eq_zero_or_pos (max width height) with h0 | h0
    · rw [h0, gm_loop_zero] at h
      cases h
    · rename_i hne
      have h2 : 2 ≤ max width height := by omega
      rw [gm_loop_some _ _ _ h2 (Nat.log2_le_self _)] at h
      simp only [Option.some.injEq] at h
      omega

theorem levelOf_zero (image : Image) : levelOf image 0 = image := by
  simp [levelOf]

theorem levelOf_channels (image : Image) (j : ℕ) :
    (levelOf image j).channels = image.channels := rfl

theorem levelOf_depth (image : Image) (j : ℕ) :
    (levelOf image j).depth = image.depth := rfl

/-- With a source of positive dimensions, every iteration of the level loop
succeeds: starting at iteration `i` with the levels `0 … i-1` already pushed
and the current dimensions halved `i` times, running `rem` more iterations
appends levels `i … i+rem-1`. -/
theorem buildLoop_full (image : Image) (h1 : 1 ≤ image.cols) (h2 : 1 ≤ image.rows) :
    ∀ rem i, buildLoop image rem i (halve^[i] image.cols) (halve^[i] image.rows)
        ((List.range i).map (levelOf image)) =
      ((List.range (i + rem)).map (levelOf image), none) := by
  intro rem
  induction rem with
  | zero => intro i; simp [buildLoop]
  | succ r ih =>
    intro i
    rw [buildLoop]
    by_cases hi : i = 0
    · subst hi
      rw [show (0 : ℕ) + (r + 1) = 1 + r by omega]
      exact ih 1
    · rw [if_neg hi]
      have hilt : i - 1 < i := by omega
      have hget : ((List.range i).map (levelOf image)).getD (i - 1) noImage =
          levelOf image (i - 1) := by
        rw [List.getD_eq_getElem?_getD, List.getElem?_map, List.getElem?_range hilt]
        rfl
      rw [hget]
      have hcpos : 1 ≤ halve^[i - 1] image.cols := halve_iterate_pos _ h1 _
      have hrpos : 1 ≤ halve^[i - 1] image.rows := halve_iterate_pos _ h2 _
      have hcpos' : 1 ≤ halve^[i] image.cols := halve_iterate_pos _ h1 _
      have hrpos' : 1 ≤ halve^[i] image.rows := halve_iterate_pos _ h2 _
      have hres : cv_resize (levelOf image (i - 1)) (halve^[i] image.cols)
          (halve^[i] image.rows) = Except.ok (levelOf image i) := by
        unfold cv_resize
        rw [if_neg (Nat.mul_ne_zero (by simp [levelOf]; omega) (by simp [levelOf]; omega))]
        rw [if_neg (Nat.mul_ne_zero (by omega) (by omega))]
        rfl
      rw [hres]
      have happ : (List.range i).map (levelOf image) ++ [levelOf image i] =
          (List.range (i + 1)).map (levelOf image) := by
        rw [List.range_succ, List.map_append]
        rfl
      show buildLoop image r (i + 1) (halve (halve^[i] image.cols))
          (halve (halve^[i] image.rows))
          ((List.range i).map (levelOf image) ++ [levelOf image i]) = _
      rw [happ, ← Function.iterate_succ_apply' halve i image.cols,
        ← Function.iterate_succ_apply' halve i image.rows]
      rw [show i + (r + 1) = (i + 1) + r by omega]
      exact ih (i + 1)

/-- The exact-real reading of the source's log2 bookkeeping: for `c ≥ 1`,
`log2eps c` is `⌊log₂ c + 1/10000⌋`, i.e. the value of
`std::log(c) / CV_LOG2 + 0.0001f` truncated to an integer, under exact real
arithmetic. -/
theorem log2eps_eq_floor (c : ℕ) (hc : 1 ≤ c) :
    (log2eps c : ℤ) = ⌊Real.logb 2 (c : ℝ) + 1 / 10000⌋ := by
  have hL : log2F c c = Nat.log2 c := log2F_eq_log2 c c le_rfl
  have hval : log2eps c =
      if 2 ^ (10000 * (Nat.log2 c + 1)) ≤ 2 * c ^ 10000 then Nat.log2 c + 1
      else Nat.log2 c := by
    unfold log2eps
    rw [hL, Nat.pow_eq, Nat.pow_eq]
  set L := Nat.log2 c with hLdef
  have h2L : 2 ^ L ≤ c := Nat.log2_self_le (by omega)
  have h2L' : c < 2 ^ (L + 1) := Nat.lt_log2_self
  have l2pos : (0:ℝ) < Real.log 2 := Real.log_pos (by norm_num)
  have hcpos : (0:ℝ) < (c:ℝ) := by exact_mod_cast hc
  have hlow : (L : ℝ) * Real.log 2 ≤ Real.log c := by
    have h := Real.log_le_log (by positivity)
      (show ((2:ℝ))^L ≤ (c:ℝ) by exact_mod_cast h2L)
    rwa [Real.log_pow] at h
  have hhigh : Real.log c < ((L : ℝ) + 1) * Real.log 2 := by
    have h := Real.log_lt_log hcpos (show (c:ℝ) < 2^(L+1) by exact_mod_cast h2L')
    rw [Real.log_pow] at h
    push_cast at h
    exact h
  have hlb : Real.logb 2 (c : ℝ) = Real.log c / Real.log 2 := rfl
  by_cases hbump : 2 ^ (10000 * (L + 1)) ≤ 2 * c ^ 10000
  · rw [hval, if_pos hbump]
    have hbumpR : (2:ℝ) ^ (10000 * (L+1)) ≤ 2 * (c:ℝ) ^ 10000 := by
      exact_mod_cast hbump
    have hlog : ((10000 * (L+1) : ℕ) : ℝ) * Real.log 2 ≤
        Real.log (2 * (c:ℝ) ^ 10000) := by
      have h := Real.log_le_log (by positivity) hbumpR
      rwa [Real.log_pow] at h
    rw [Real.log_mul (by norm_num) (by positivity), Real.log_pow] at hlog
    push_cast at hlog
    symm
    rw [Int.floor_eq_iff]
    constructor
    · rw [hlb]
      push_cast
      rw [show ((L:ℝ) + 1) ≤ Real.log (c:ℝ) / Real.log 2 + 1 / 10000 ↔
          ((L:ℝ) + 1 - 1/10000) ≤ Real.log (c:ℝ) / Real.log 2 by
            constructor <;> intro <;> linarith]
      rw [le_div_iff₀ l2pos]
      linarith [hlog, l2pos]
    · rw [hlb]
      push_cast
      have hd : Real.log (c:ℝ) / Real.log 2 < (L:ℝ) + 1 := by
        rw [div_lt_iff₀ l2pos]
        linarith
      linarith
  · rw [hval, if_neg hbump]
    push_neg at hbump
    have hbumpR : 2 * (c:ℝ) ^ 10000 < (2:ℝ) ^ (10000 * (L+1)) := by
      exact_mod_cast hbump
    have hlog : Real.log (2 * (c:ℝ) ^ 10000) <
        ((10000 * (L+1) : ℕ) : ℝ) * Real.log 2 := by
      have h := Real.log_lt_log (by positivity) hbumpR
      rwa [Real.log_pow] at h
    rw [Real.log_mul (by norm_num) (by positivity), Real.log_pow] at hlog
    push_cast at hlog
    symm
    rw [Int.floor_eq_iff]
    constructor
    · rw [hlb]
      push_cast
      have hd : (L:ℝ) ≤ Real.log (c:ℝ) / Real.log 2 := by
        rw [le_div_iff₀ l2pos]
        linarith
      linarith
    · rw [hlb]
      push_cast
      rw [show Real.log (c:ℝ) / Real.log 2 + 1 / 10000 < (L:ℝ) + 1 ↔
          Real.log (c:ℝ) / Real.log 2 < (L:ℝ) + 1 - 1/10000 by
            constructor <;> intro <;> linarith]
      rw [div_lt_iff₀ l2pos]
      linarith [hlog, l2pos]

/-- Every failure of `cv_resize` is an `ImageProcessingFailure`. -/
theorem cv_resize_err (src : Image) (dcols drows : ℕ) (e : Err)
    (h : cv_resize src dcols drows = Except.error e) :
    e = Err.ImageProcessingFailure := by
  unfold cv_resize at h
  split at h
  · simp only [Except.error.injEq] at h
    exact h.symm
  · split at h
    · simp only [Except.error.injEq] at h
      exact h.symm
    · cases h

/-- The only exception the level loop can raise is an OpenCV
`ImageProcessingFailure` (from `cv::resize`). -/
theorem buildLoop_err_imgproc (image : Image) :
    ∀ rem i w h mm mm' e, buildLoop image rem i w h mm = (mm', some e) →
      e = Err.ImageProcessingFailure := by
  intro rem
  induction rem with
  | zero =>
    intro i w h mm mm' e hbl
    simp [buildLoop] at hbl
  | succ r ih =>
    intro i w h mm mm' e hbl
    rw [buildLoop] at hbl
    by_cases hi : i = 0
    · rw [if_pos hi] at hbl
      exact ih _ _ _ _ _ _ hbl
    · rw [if_neg hi] at hbl
      cases hres : cv_resize (mm.getD (i - 1) noImage) w h with
      | error e2 =>
        rw [hres] at hbl
        simp only [Prod.mk.injEq, Option.some.injEq] at hbl
        rw [← hbl.2]
        exact cv_resize_err _ _ _ _ hres
      | ok lvl =>
        rw [hres] at hbl
        exact ih _ _ _ _ _ _ hbl

/-- Inversion of the conversion step: a successful
`convertTo(CV_8UC4)`-then-`cvtColor(CV_BGR2BGRA)` pipeline means the source
had 3 or 4 channels, and the normalized image is the source with 4 channels
at 8-bit depth. -/
theorem cvtColor_ok_inv (img image2 : Image)
    (h : cvtColor_BGR2BGRA (convertTo_CV8UC4 img) = Except.ok image2) :
    image2 = { img with channels := 4, depth := CV_8U } ∧
      (img.channels = 3 ∨ img.channels = 4) := by
  unfold cvtColor_BGR2BGRA convertTo_CV8UC4 at h
  split at h
  · simp only [Except.ok.injEq] at h
    constructor
    · exact h.symm
    · assumption
  · cases h

/-- Unfolding step: when the level-count resolution diverges,
`create_mipmapped_texture` diverges. -/
theorem create_eq_of_none (img : Image) (n : ℕ) (tex : Texture)
    (hR : (if n = 0 then get_max_possible_mipmaps_num img.cols img.rows
           else some n) = none) :
    create_mipmapped_texture img n tex = BuildResult.divergent := by
  unfold create_mipmapped_texture
  rw [hR]

/-- Unfolding step: once the level count resolves to `num`,
`create_mipmapped_texture` is the validation-conversion-loop pipeline. -/
theorem create_eq_of_some (img : Image) (n : ℕ) (tex : Texture) (num : ℕ)
    (hR : (if n = 0 then get_max_possible_mipmaps_num img.cols img.rows
           else some n) = some num) :
    create_mipmapped_texture img n tex =
      if 1 < num ∧ (is_power_of_two (img.cols : ℤ) = false ∨
                    is_power_of_two (img.rows : ℤ) = false) then
        BuildResult.err Err.InvalidDimensions { tex with mipmaps_num := num }
      else
        match cvtColor_BGR2BGRA (convertTo_CV8UC4 img) with
        | Except.error e => BuildResult.err e { tex with mipmaps_num := num }
        | Except.ok image2 =>
          match buildLoop image2 num 0 image2.cols image2.rows tex.mipmaps with
          | (mm, some e) =>
            BuildResult.err e { tex with mipmaps_num := num, mipmaps := mm }
          | (mm, none) =>
            BuildResult.ok { tex with
              mipmaps_num := num,
              mipmaps := mm,
              widthLog := log2eps (mm.getD 0 noImage).cols,
              heightLog := log2eps (mm.getD 0 noImage).rows } := by
  unfold create_mipmapped_texture
  rw [hR]

/-- Master inversion lemma for a *successful* `create_mipmapped_texture`
call on a texture with an empty level vector: the resolved level count
`num` is positive, the resulting level sequence is exactly
`levelOf image2 0, …, levelOf image2 (num-1)` for the normalized source
`image2`, the level-count field is `num`, the log2 fields are `log2eps` of
the source dimensions, and a multi-level result forces positive source
dimensions. -/
theorem create_ok_main (img : Image) (n : ℕ) (tex t : Texture)
    (hmm : tex.mipmaps = [])
    (h : create_mipmapped_texture img n tex = BuildResult.ok t) :
    ∃ num,
      (if n = 0 then get_max_possible_mipmaps_num img.cols img.rows else some n) = some num ∧
      1 ≤ num ∧
      t.mipmaps = (List.range num).map (levelOf { img with channels := 4, depth := CV_8U }) ∧
      t.mipmaps_num = num ∧
      t.widthLog = log2eps img.cols ∧
      t.heightLog = log2eps img.rows ∧
      (2 ≤ num → 1 ≤ img.cols ∧ 1 ≤ img.rows) := by
  cases hR : (if n = 0 then get_max_possible_mipmaps_num img.cols img.rows else some n) with
  | none =>
    rw [create_eq_of_none img n tex hR] at h
    cases h
  | some num =>
  rw [create_eq_of_some img n tex num hR] at h
  have hnum1 : 1 ≤ num := by
    by_cases hn : n = 0
    · rw [if_pos hn] at hR
      exact gm_some_ge_one _ _ _ hR
    · rw [if_neg hn] at hR
      simp only [Option.some.injEq] at hR
      omega
  refine ⟨num, rfl, hnum1, ?_⟩
  split at h
  · cases h
  cases hE : cvtColor_BGR2BGRA (convertTo_CV8UC4 img) with
  | error e => rw [hE] at h; cases h
  | ok image2 =>
  rw [hE] at h
  dsimp only at h
  obtain ⟨himg2, hch⟩ := cvtColor_ok_inv img image2 hE
  cases hB : buildLoop image2 num 0 image2.cols image2.rows tex.mipmaps with
  | mk mm oe =>
  rw [hB] at h
  cases oe with
  | some e => cases h
  | none =>
  simp only [BuildResult.ok.injEq] at h
  rw [hmm] at hB
  have hc2 : image2.cols = img.cols := by rw [himg2]
  have hr2 : image2.rows = img.rows := by rw [himg2]
  have hmmEq : (1 ≤ img.cols ∧ 1 ≤ img.rows) ∨ num = 1 := by
    by_cases hpos : 1 ≤ img.cols ∧ 1 ≤ img.rows
    · exact Or.inl hpos
    · right
      by_contra hne1
      have h2le : 2 ≤ num := by omega
      obtain ⟨k, rfl⟩ : ∃ k, num = k + 1 + 1 := ⟨num - 2, by omega⟩
      have hzero : image2.cols * image2.rows = 0 := by
        rw [hc2, hr2]
        rcases Nat.eq_zero_or_pos img.cols with hc | hc
        · rw [hc, Nat.zero_mul]
        · rcases Nat.eq_zero_or_pos img.rows with hr | hr
          · rw [hr, Nat.mul_zero]
          · exact absurd ⟨hc, hr⟩ hpos
      rw [buildLoop] at hB
      rw [if_pos rfl] at hB
      dsimp only at hB
      rw [buildLoop] at hB
      rw [if_neg (by omega : ¬(0 + 1 = 0))] at hB
      rw [show (([] : List Image) ++ [image2]).getD (0 + 1 - 1) noImage = image2 from rfl] at hB
      unfold cv_resize at hB
      rw [if_pos hzero] at hB
      simp at hB
  have hmml : mm = (List.range num).map (levelOf image2) := by
    rcases hmmEq with hpos | h1
    · have hfull := buildLoop_full image2 (by rw [hc2]; exact hpos.1)
        (by rw [hr2]; exact hpos.2) num 0
      simp only [Function.iterate_zero, id_eq, List.range_zero, List.map_nil,
        Nat.zero_add] at hfull
      rw [hfull] at hB
      simp only [Prod.mk.injEq] at hB
      exact hB.1.symm
    · subst h1
      rw [show buildLoop image2 1 0 image2.cols image2.rows [] = ([image2], none) from rfl] at hB
      simp only [Prod.mk.injEq] at hB
      rw [← hB.1]
      rfl
  have hgd0 : mm.getD 0 noImage = image2 := by
    rw [hmml]
    rw [List.getD_eq_getElem?_getD, List.getElem?_map, List.getElem?_range (by omega : 0 < num)]
    simp [levelOf_zero]
  refine ⟨?_, ?_, ?_, ?_, ?_⟩
  · rw [← h, hmml, himg2]
  · rw [← h]
  · rw [← h]
    simp only [hgd0, hc2]
  · rw [← h]
    simp only [hgd0, hr2]
  · intro h2le
    rcases hmmEq with hpos | h1
    · exact hpos
    · omega

/-- Every failure of `cvtColor_BGR2BGRA` is an `ImageProcessingFailure`. -/
theorem cvtColor_err (img : Image) (e : Err)
    (h : cvtColor_BGR2BGRA img = Except.error e) : e = Err.ImageProcessingFailure := by
  unfold cvtColor_BGR2BGRA at h
  split at h
  · cases h
  · simp only [Except.error.injEq] at h
    exact h.symm

theorem pot_zero : is_power_of_two 0 = true := by
  have h : (0:ℤ) - 1 = Int.negSucc 0 := rfl
  simp only [is_power_of_two, h]
  show decide (Int.land (Int.ofNat 0) (Int.negSucc 0) = 0) = true
  simp [Int.land, Nat.ldiff, Nat.bitwise_zero_left]

theorem pot_two_pow (k : ℕ) : is_power_of_two ((2:ℤ) ^ k) = true := by
  have hk1 : 1 ≤ 2 ^ k := Nat.one_le_two_pow
  have h1 : ((2:ℤ)) ^ k = ((2 ^ k : ℕ) : ℤ) := by push_cast; ring
  have h2 : ((2 ^ k : ℕ) : ℤ) - 1 = ((2 ^ k - 1 : ℕ) : ℤ) := by
    rw [Nat.cast_sub hk1]
    simp
  have h4 : (2 ^ k) &&& (2 ^ k - 1) = 0 := by
    rw [Nat.and_pow_two_sub_one_eq_mod]
    exact Nat.mod_self _
  have h3 : Int.land ((2 ^ k : ℕ) : ℤ) ((2 ^ k - 1 : ℕ) : ℤ) =
      (((2 ^ k) &&& (2 ^ k - 1) : ℕ) : ℤ) := rfl
  simp only [is_power_of_two, h1, h2, h3, h4]
  simp

/-! ## The claims -/

/-- Claim C1 (amended): every level of a successfully built pyramid has
exactly 4 channels at 8-bit unsigned depth, and level 0 is the source image
normalized to that canonical format. (The original claim also asserted this
for 1-channel sources; those fail — see `grayscale_source_build_fails`.) -/
theorem mipmap_levels_4channel_8bit (img : Image) (n : ℕ) (tex t : Texture)
    (hmm : tex.mipmaps = [])
    (h : create_mipmapped_texture img n tex = BuildResult.ok t) :
    t.mipmaps.getD 0 noImage = { img with channels := 4, depth := CV_8U } ∧
    ∀ lvl ∈ t.mipmaps, lvl.channels = 4 ∧ lvl.depth = CV_8U := by
  obtain ⟨num, hR, hge, hmaps, _, _, _, _⟩ := create_ok_main img n tex t hmm h
  constructor
  · rw [hmaps, List.getD_eq_getElem?_getD, List.getElem?_map,
      List.getElem?_range (by omega : 0 < num)]
    simp [levelOf_zero]
  · intro lvl hlvl
    rw [hmaps] at hlvl
    simp only [List.mem_map] at hlvl
    obtain ⟨j, _, rfl⟩ := hlvl
    exact ⟨rfl, rfl⟩

/-- Claim C1, counterexample to the original statement: a 1-channel
(grayscale) source is not normalized and stored; the `CV_BGR2BGRA`
conversion rejects it and the build fails with the propagated OpenCV
failure, producing no pyramid. -/
theorem grayscale_source_build_fails :
    create_mipmapped_texture img1ch 1 Texture.init =
      BuildResult.err Err.ImageProcessingFailure
        { Texture.init with mipmaps_num := 1 } := by decide

theorem mipmap_levels_4channel_8bit_witness :
    (tex128.mipmaps.getD 1 noImage).channels = 4 ∧
    (tex128.mipmaps.getD 1 noImage).depth = CV_8U :=
  (mipmap_levels_4channel_8bit img128 0 Texture.init tex128 rfl (by decide)).2
    (tex128.mipmaps.getD 1 noImage) (by decide)

/-- Claim C2: with `level_count = 0` (auto), a successful build of an image
with positive dimensions produces exactly
`⌊log₂ (max (width, height))⌋ + 1` levels — 1 plus the number of times the
larger dimension can be right-shifted before reaching 1. (The witness
instantiates this at 128×128, giving 8 levels, and 1×1, giving 1 level.) -/
theorem auto_level_count_log2 (img : Image) (tex t : Texture)
    (h1 : 1 ≤ img.cols) (h2 : 1 ≤ img.rows) (hmm : tex.mipmaps = [])
    (h : create_mipmapped_texture img 0 tex = BuildResult.ok t) :
    t.mipmaps.length = Nat.log2 (max img.cols img.rows) + 1 := by
  obtain ⟨num, hR, hge, hmaps, _, _, _, _⟩ := create_ok_main img 0 tex t hmm h
  rw [if_pos rfl, gm_eq_some img.cols img.rows (by omega)] at hR
  simp only [Option.some.injEq] at hR
  rw [hmaps, List.length_map, List.length_range, ← hR]

theorem auto_level_count_log2_witness :
    tex128.mipmaps.length = Nat.log2 (max 128 128) + 1 ∧
    tex1x1.mipmaps.length = Nat.log2 (max 1 1) + 1 ∧
    tex128.mipmaps.length = 8 ∧ tex1x1.mipmaps.length = 1 :=
  ⟨auto_level_count_log2 img128 Texture.init tex128 (by decide) (by decide) rfl (by decide),
   auto_level_count_log2 img1x1 Texture.init tex1x1 (by decide) (by decide) rfl (by decide),
   by decide, by decide⟩

/-- Claim C3: if the resolved level count exceeds 1 and either dimension is
not a power of two, the build fails with `InvalidDimensions` (no pyramid,
no clamping); a request for exactly 1 level bypasses the check entirely
(the only failure then possible is a propagated `ImageProcessingFailure`),
so `build(image_100x50, 1)` succeeds while `build(image_100x50, 0)` fails. -/
theorem power_of_two_validation :
    (∀ (img : Image) (n : ℕ) (tex : Texture) (num : ℕ),
      (if n = 0 then get_max_possible_mipmaps_num img.cols img.rows
       else some n) = some num →
      1 < num →
      is_power_of_two (img.cols : ℤ) = false ∨ is_power_of_two (img.rows : ℤ) = false →
      create_mipmapped_texture img n tex =
        BuildResult.err Err.InvalidDimensions { tex with mipmaps_num := num }) ∧
    (∀ (img : Image) (tex : Texture) (e : Err) (s : Texture),
      create_mipmapped_texture img 1 tex = BuildResult.err e s →
      e = Err.ImageProcessingFailure) ∧
    create_mipmapped_texture img100x50 0 Texture.init =
      BuildResult.err Err.InvalidDimensions { Texture.init with mipmaps_num := 7 } ∧
    create_mipmapped_texture img100x50 1 Texture.init = BuildResult.ok tex100x50 := by
  refine ⟨?_, ?_, by decide, by decide⟩
  · intro img n tex num hR h1 h2
    rw [create_eq_of_some img n tex num hR]
    rw [if_pos ⟨h1, h2⟩]
  · intro img tex e s h
    rw [create_eq_of_some img 1 tex 1 (by simp)] at h
    rw [if_neg (by intro hc; exact absurd hc.1 (by omega))] at h
    cases hE : cvtColor_BGR2BGRA (convertTo_CV8UC4 img) with
    | error e2 =>
      rw [hE] at h
      dsimp only at h
      simp only [BuildResult.err.injEq] at h
      rw [← h.1]
      exact cvtColor_err _ _ hE
    | ok image2 =>
      rw [hE] at h
      dsimp only at h
      cases hB : buildLoop image2 1 0 image2.cols image2.rows tex.mipmaps with
      | mk mm oe =>
        rw [hB] at h
        cases oe with
        | some e2 =>
          dsimp only at h
          simp only [BuildResult.err.injEq] at h
          rw [← h.1]
          exact buildLoop_err_imgproc image2 1 0 image2.cols image2.rows
            tex.mipmaps mm e2 hB
        | none => cases h

theorem power_of_two_validation_witness :
    create_mipmapped_texture img100x50 0 Texture.init =
      BuildResult.err Err.InvalidDimensions { Texture.init with mipmaps_num := 7 } ∧
    Err.ImageProcessingFailure = Err.ImageProcessingFailure :=
  ⟨power_of_two_validation.1 img100x50 0 Texture.init 7 (by decide) (by decide)
      (Or.inl (by decide)),
   power_of_two_validation.2.1 img1ch Texture.init Err.ImageProcessingFailure
     { Texture.init with mipmaps_num := 1 } (by decide)⟩

/-- Claim C4: in every successfully built pyramid, each level's dimensions
are `max 1 (floor(previous / 2))` in both axes. (The witness instantiates
this for the 5-level pyramid built from a 16×16 source: 16, 8, 4, 2, 1.) -/
theorem level_dims_halved (img : Image) (n : ℕ) (tex t : Texture)
    (hmm : tex.mipmaps = [])
    (h : create_mipmapped_texture img n tex = BuildResult.ok t) :
    ∀ i, i + 1 < t.mipmaps.length →
      (t.mipmaps.getD (i + 1) noImage).cols =
        max 1 ((t.mipmaps.getD i noImage).cols / 2) ∧
      (t.mipmaps.getD (i + 1) noImage).rows =
        max 1 ((t.mipmaps.getD i noImage).rows / 2) := by
  obtain ⟨num, hR, hge, hmaps, _, _, _, hpos⟩ := create_ok_main img n tex t hmm h
  intro i hi
  rw [hmaps, List.length_map, List.length_range] at hi
  obtain ⟨hcp, hrp⟩ := hpos (by omega)
  have hget : ∀ j, j < num → t.mipmaps.getD j noImage =
      levelOf { img with channels := 4, depth := CV_8U } j := by
    intro j hj
    rw [hmaps, List.getD_eq_getElem?_getD, List.getElem?_map, List.getElem?_range hj]
    rfl
  rw [hget (i + 1) hi, hget i (by omega)]
  constructor
  · show halve^[i + 1] img.cols = max 1 (halve^[i] img.cols / 2)
    rw [Function.iterate_succ_apply']
    exact halve_eq_max _ (halve_iterate_pos _ hcp _)
  · show halve^[i + 1] img.rows = max 1 (halve^[i] img.rows / 2)
    rw [Function.iterate_succ_apply']
    exact halve_eq_max _ (halve_iterate_pos _ hrp _)

theorem level_dims_halved_witness :
    create_mipmapped_texture img16 0 Texture.init = BuildResult.ok tex16 ∧
    tex16.mipmaps.length = 5 ∧
    ((tex16.mipmaps.getD 1 noImage).cols = max 1 ((tex16.mipmaps.getD 0 noImage).cols / 2) ∧
     (tex16.mipmaps.getD 1 noImage).rows = max 1 ((tex16.mipmaps.getD 0 noImage).rows / 2)) :=
  ⟨by decide, by decide,
   level_dims_halved img16 0 Texture.init tex16 rfl (by decide) 0 (by decide)⟩

/-- Claim C5: `screen_to_clip_space` is the algebraic inverse of
`clip_to_screen_space` — the round trip is the identity for every point and
positive screen dimensions, with the float arithmetic modelled exactly over
the rationals. -/
theorem screen_clip_round_trip (p : Vec2f) (w h : ℤ) (hw : 0 < w) (hh : 0 < h) :
    screen_to_clip_space (clip_to_screen_space p w h) w h = p := by
  have hwQ : ((w : ℚ)) ≠ 0 := Int.cast_ne_zero.mpr (by omega)
  have hhQ : ((h : ℚ)) ≠ 0 := Int.cast_ne_zero.mpr (by omega)
  cases p with
  | mk x y =>
    unfold screen_to_clip_space clip_to_screen_space
    simp only [Vec2f.mk.injEq]
    constructor
    · field_simp
    · field_simp
      ring

theorem screen_clip_round_trip_witness :
    screen_to_clip_space (clip_to_screen_space { x := 1/3, y := -2/7 } 640 480) 640 480 =
      { x := 1/3, y := -2/7 } :=
  screen_clip_round_trip { x := 1/3, y := -2/7 } 640 480 (by decide) (by decide)

/-- Claim C6: `clip_to_screen_space` computes
`x' = (x + 1) * width / 2` and `y' = height - (y + 1) * height / 2`;
consequently the origin maps to the screen centre, the corner `(-1, 1)` to
`(0, 0)` and the corner `(1, -1)` to `(width, height)` (for all screen
dimensions, in particular positive ones). -/
theorem clip_to_screen_corners : ∀ (x y : ℚ) (w h : ℤ),
    clip_to_screen_space { x := x, y := y } w h =
      { x := (x + 1) * ((w : ℚ) / 2), y := (h : ℚ) - (y + 1) * ((h : ℚ) / 2) } ∧
    clip_to_screen_space { x := 0, y := 0 } w h =
      { x := (w : ℚ) / 2, y := (h : ℚ) / 2 } ∧
    clip_to_screen_space { x := -1, y := 1 } w h = { x := 0, y := 0 } ∧
    clip_to_screen_space { x := 1, y := -1 } w h = { x := (w : ℚ), y := (h : ℚ) } := by
  intro x y w h
  refine ⟨rfl, ?_, ?_, ?_⟩ <;>
    (unfold clip_to_screen_space
     simp only [Vec2f.mk.injEq]
     constructor <;> ring)

theorem clip_to_screen_corners_witness :
    clip_to_screen_space { x := 0, y := 0 } 640 480 =
      { x := ((640 : ℤ) : ℚ) / 2, y := ((480 : ℤ) : ℚ) / 2 } :=
  (clip_to_screen_corners 0 0 640 480).2.1

/-- Claim C7: after a successful build of a source with positive
dimensions, the stored log2 fields are exactly
`⌊log₂ (dimension) + 1/10000⌋` (the epsilon-nudged floor the source
computes with `std::log`); the witness instantiates this at a 256×64
source, whose fields are 8 and 6. -/
theorem stored_log2_fields_floor (img : Image) (n : ℕ) (tex t : Texture)
    (hmm : tex.mipmaps = []) (h1 : 1 ≤ img.cols) (h2 : 1 ≤ img.rows)
    (h : create_mipmapped_texture img n tex = BuildResult.ok t) :
    (t.widthLog : ℤ) = ⌊Real.logb 2 (img.cols : ℝ) + 1 / 10000⌋ ∧
    (t.heightLog : ℤ) = ⌊Real.logb 2 (img.rows : ℝ) + 1 / 10000⌋ := by
  obtain ⟨num, _, _, _, _, hw, hh, _⟩ := create_ok_main img n tex t hmm h
  exact ⟨by rw [hw]; exact log2eps_eq_floor _ h1,
         by rw [hh]; exact log2eps_eq_floor _ h2⟩

theorem stored_log2_fields_floor_witness :
    tex256x64.widthLog = 8 ∧ tex256x64.heightLog = 6 ∧
    ((tex256x64.widthLog : ℤ) = ⌊Real.logb 2 ((256 : ℕ) : ℝ) + 1 / 10000⌋ ∧
     (tex256x64.heightLog : ℤ) = ⌊Real.logb 2 ((64 : ℕ) : ℝ) + 1 / 10000⌋) :=
  ⟨rfl, rfl,
   stored_log2_fields_floor img256x64 0 Texture.init tex256x64 rfl
     (by decide) (by decide) (by decide)⟩

/-- Claim C8 (amended): on a failed build the log2 fields are unchanged,
and an `InvalidDimensions` failure additionally leaves the level sequence
unchanged; the level-count field, however, has already been overwritten
with the newly resolved count before validation (see
`failed_build_mutates_level_count`). -/
theorem failure_preserves_public_fields (img : Image) (n : ℕ) (tex : Texture)
    (e : Err) (s : Texture)
    (h : create_mipmapped_texture img n tex = BuildResult.err e s) :
    s.widthLog = tex.widthLog ∧ s.heightLog = tex.heightLog ∧
    (e = Err.InvalidDimensions → s.mipmaps = tex.mipmaps) := by
  cases hR : (if n = 0 then get_max_possible_mipmaps_num img.cols img.rows
              else some n) with
  | none =>
    rw [create_eq_of_none img n tex hR] at h
    cases h
  | some num =>
  rw [create_eq_of_some img n tex num hR] at h
  split at h
  · simp only [BuildResult.err.injEq] at h
    rw [← h.2]
    exact ⟨rfl, rfl, fun _ => rfl⟩
  cases hE : cvtColor_BGR2BGRA (convertTo_CV8UC4 img) with
  | error e2 =>
    rw [hE] at h
    dsimp only at h
    simp only [BuildResult.err.injEq] at h
    rw [← h.2]
    exact ⟨rfl, rfl, fun _ => rfl⟩
  | ok image2 =>
    rw [hE] at h
    dsimp only at h
    cases hB : buildLoop image2 num 0 image2.cols image2.rows tex.mipmaps with
    | mk mm oe =>
      rw [hB] at h
      cases oe with
      | some e2 =>
        dsimp only at h
        simp only [BuildResult.err.injEq] at h
        obtain ⟨he, hs⟩ := h
        rw [← hs]
        refine ⟨rfl, rfl, fun hID => ?_⟩
        exfalso
        have hipf := buildLoop_err_imgproc image2 num 0 image2.cols image2.rows
          tex.mipmaps mm e2 hB
        rw [← he, hipf] at hID
        cases hID
      | none => cases h

/-- Claim C8, counterexample to the original statement: a failing call is
not state-neutral — the receiver's level-count field is overwritten with
the newly resolved count before the power-of-two validation throws, so a
texture holding a 1-level pyramid ends up with `mipmaps_num = 7` after a
failed `build(image_100x50, 0)`. -/
theorem failed_build_mutates_level_count :
    create_mipmapped_texture img100x50 0 texPrev =
      BuildResult.err Err.InvalidDimensions { texPrev with mipmaps_num := 7 } ∧
    texPrev.mipmaps_num = 1 ∧
    ({ texPrev with mipmaps_num := 7 } : Texture).mipmaps_num = 7 ∧
    decide (({ texPrev with mipmaps_num := 7 } : Texture) = texPrev) = false := by
  decide

theorem failure_preserves_public_fields_witness :
    ({ texPrev with mipmaps_num := 7 } : Texture).widthLog = texPrev.widthLog ∧
    ({ texPrev with mipmaps_num := 7 } : Texture).heightLog = texPrev.heightLog ∧
    (Err.InvalidDimensions = Err.InvalidDimensions →
      ({ texPrev with mipmaps_num := 7 } : Texture).mipmaps = texPrev.mipmaps) :=
  failure_preserves_public_fields img100x50 0 texPrev Err.InvalidDimensions
    { texPrev with mipmaps_num := 7 } (by decide)

/-- Claim C9: `is_power_of_two` is `x & (x - 1) == 0`, which accepts 0 (and
every exact power of two), so the multi-level validation does not reject a
zero dimension: a 0×2 auto build passes the power-of-two check and fails
only later, inside the level loop, with an `ImageProcessingFailure` from
the resize of an empty image. -/
theorem pot_accepts_zero_and_powers :
    is_power_of_two 0 = true ∧
    (∀ x : ℤ, is_power_of_two x = true ↔ Int.land x (x - 1) = 0) ∧
    (∀ k : ℕ, is_power_of_two ((2:ℤ) ^ k) = true) ∧
    create_mipmapped_texture img0x2 0 Texture.init =
      BuildResult.err Err.ImageProcessingFailure
        { Texture.init with
          mipmaps := [{ cols := 0, rows := 2, channels := 4, depth := CV_8U }],
          mipmaps_num := 2 } := by
  refine ⟨pot_zero, fun x => by simp [is_power_of_two], pot_two_pow, ?_⟩
  rw [create_eq_of_some img0x2 0 Texture.init 2 (by decide)]
  rw [if_neg ?hc]
  case hc =>
    intro hcond
    rcases hcond.2 with hfalse | hfalse
    · rw [show ((img0x2.cols : ℕ) : ℤ) = 0 by decide] at hfalse
      rw [pot_zero] at hfalse
      cases hfalse
    · rw [show is_power_of_two ((img0x2.rows : ℕ) : ℤ) = true by decide] at hfalse
      cases hfalse
  decide

theorem pot_accepts_zero_and_powers_witness :
    is_power_of_two ((2:ℤ) ^ 7) = true :=
  pot_accepts_zero_and_powers.2.2.1 7

/-- Claim C10: `get_max_possible_mipmaps_num` terminates with the value
`⌊log₂ (max (width, height))⌋ + 1` whenever `max(width, height) ≥ 1`, and
its do-while loop diverges exactly when both dimensions are 0 (the shift
loop never brings `size = 0` to 1, modelled by the fuelled loop returning
`none` for every fuel). -/
theorem get_max_mipmaps_termination :
    (∀ width height, 1 ≤ max width height →
      get_max_possible_mipmaps_num width height =
        some (Nat.log2 (max width height) + 1)) ∧
    (∀ fuel n, gm_loop fuel 0 n = none) ∧
    get_max_possible_mipmaps_num 0 0 = none :=
  ⟨gm_eq_some, gm_loop_zero, rfl⟩

theorem get_max_mipmaps_termination_witness :
    get_max_possible_mipmaps_num 128 128 = some (Nat.log2 (max 128 128) + 1) :=
  get_max_mipmaps_termination.1 128 128 (by decide)

